import Mathlib

/-!
Shallow embedding of the `papertrade` repository (Python) in Lean 4.

Conventions of the embedding:
* Python `float` values are modelled as `ℚ` (exact arithmetic); the spec's
  numeric examples are decimal and representable.
* The relational store (SQLite via SQLModel) is modelled as an explicit
  `LedgerState` record of lists of rows.  A Python function that mutates the
  session and commits at its end becomes a pure function returning the new
  state; a raised exception becomes `Except.error`, and since the session is
  only committed on success, an error leaves the caller's (database) state
  unchanged.
* `select(...).where(...).first()` becomes `List.find?`; mutating an ORM row
  becomes replacing the first matching row; `session.delete` removes the
  first matching row; `session.add` appends.
* Timestamps (`created_at`, `filled_at`, `marked_on`) are not modelled: no
  claim mentions them.
* The yfinance quote provider is an oracle parameter
  `quote : String → Option ℚ` (`none` = "No price data", the `ValueError`
  raised by `last_price`).
-/

namespace PaperTrade

/-- Model of `app/models.py` `Account` row (id, name, cash). -/
structure Account where
  id : Nat
  name : String
  cash : ℚ
deriving Repr, DecidableEq

/-- Model of `app/models.py` `PositionLot` row. -/
structure PositionLot where
  account_id : Nat
  symbol : String
  qty : ℚ
  avg_cost : ℚ
deriving Repr, DecidableEq

/-- Model of `app/models.py` `Trade` row. -/
structure Trade where
  account_id : Nat
  symbol : String
  side : String
  qty : ℚ
  requested_price : ℚ
  fill_price : ℚ
  commission : ℚ
  slippage_bps : ℚ
  note : String
deriving Repr, DecidableEq

/-- Model of `app/models.py` `DailyMark` row (date not modelled). -/
structure DailyMark where
  account_id : Nat
  equity : ℚ
  cash : ℚ
deriving Repr, DecidableEq

/-- The relational store: the tables touched by the trading engine. -/
structure LedgerState where
  accounts : List Account
  lots : List PositionLot
  trades : List Trade
  marks : List DailyMark
deriving Repr, DecidableEq

/-- A fresh database. -/
def LedgerState.empty : LedgerState := ⟨[], [], [], []⟩

/-- Model of `app/config.py` `Settings` (field name `commistion_per_trade` is the
source's own spelling). -/
structure Settings where
  slippage_bps : ℚ
  commistion_per_trade : ℚ
  default_cash : ℚ
deriving Repr, DecidableEq

/-- The configured defaults: 10 bps slippage, 0.50 commission, 5000 cash. -/
def defaultSettings : Settings := ⟨10, 1/2, 5000⟩

/-- Model of `select(Account).where(Account.name == name).first()`. -/
def findAccount (accts : List Account) (name : String) : Option Account :=
  accts.find? (fun a => a.name == name)

/-- Model of `select(PositionLot).where(account_id == aid, symbol == sym).first()`. -/
def findLot (lots : List PositionLot) (aid : Nat) (sym : String) :
    Option PositionLot :=
  lots.find? (fun l => l.account_id == aid && l.symbol == sym)

/-- Mutating the `cash` of the ORM `Account` row: replace the first row with
this primary key. -/
def setCash (accts : List Account) (aid : Nat) (cash : ℚ) : List Account :=
  match accts with
  | [] => []
  | a :: rest =>
      if a.id == aid then { a with cash := cash } :: rest
      else a :: setCash rest aid cash

/-- Mutating `qty`/`avg_cost` of the first `PositionLot` row for
`(account, symbol)`. -/
def updateLot (lots : List PositionLot) (aid : Nat) (sym : String)
    (qty avg_cost : ℚ) : List PositionLot :=
  match lots with
  | [] => []
  | l :: rest =>
      if l.account_id == aid && l.symbol == sym then
        { l with qty := qty, avg_cost := avg_cost } :: rest
      else l :: updateLot rest aid sym qty avg_cost

/-- Model of `session.delete(lot)`: remove the first `PositionLot` row for
`(account, symbol)`. -/
def deleteLot (lots : List PositionLot) (aid : Nat) (sym : String) :
    List PositionLot :=
  match lots with
  | [] => []
  | l :: rest =>
      if l.account_id == aid && l.symbol == sym then rest
      else l :: deleteLot rest aid sym

/-- SQLite-style autoincrement primary key for a new `Account` row. -/
def nextId (accts : List Account) : Nat :=
  (accts.foldl (fun m a => max m a.id) 0) + 1

/-- Python `str.upper()` (restricted to ASCII, which covers every side
string the spec's taxonomy distinguishes). -/
def pyUpper (s : String) : String := ⟨s.data.map Char.toUpper⟩

/-- Model of `app/engine.py` `_apply_slippage`: BUY pays up, SELL receives less;
`slip = price * (bps / 10_000.0)`. -/
def apply_slippage (price : ℚ) (side : String) (bps : ℚ) : ℚ :=
  let slip := price * (bps / 10000)
  if pyUpper side == "BUY" then price + slip else price - slip

/-- The `ValueError`s `place_market_order`, `compute_equity` and the quote
provider can raise. `zeroDivision` is the `ZeroDivisionError` from the
weighted-average merge when `lot.qty + qty == 0`. -/
inductive OrderError where
  | notFound
  | noPriceData
  | insufficientFunds
  | insufficientShares
  | invalidSide
  | zeroDivision
deriving Repr, DecidableEq

/-- Model of `app/engine.py` `ensure_account`: look up by name; if present return the
row unchanged, otherwise insert a row with the given cash or the configured
default. Returns the (possibly updated) state and the account row. -/
def ensure_account (cfg : Settings) (st : LedgerState) (name : String)
    (cash : Option ℚ) : LedgerState × Account :=
  match findAccount st.accounts name with
  | some acct => (st, acct)
  | none =>
      let acct : Account :=
        { id := nextId st.accounts, name := name,
          cash := cash.getD cfg.default_cash }
      ({ st with accounts := st.accounts ++ [acct] }, acct)

/-- Model of `app/engine.py` `place_market_order`.  The session commits only at the
end of the Python function, so every raised exception (`Except.error`)
leaves the database state unchanged; on success the returned state carries
the cash mutation, the lot mutation and the appended `Trade` row together. -/
def place_market_order (cfg : Settings) (quote : String → Option ℚ)
    (st : LedgerState) (account_name symbol side : String) (qty : ℚ)
    (note : String) : Except OrderError (LedgerState × Trade) :=
  match findAccount st.accounts account_name with
  | none => .error .notFound
  | some acct =>
    match quote symbol with
    | none => .error .noPriceData
    | some px =>
      let fill := apply_slippage px side cfg.slippage_bps
      let commission := cfg.commistion_per_trade
      let sideU := pyUpper side
      let cost := fill * qty
      let tr : Trade :=
        { account_id := acct.id, symbol := symbol, side := sideU, qty := qty,
          requested_price := px, fill_price := fill,
          commission := commission, slippage_bps := cfg.slippage_bps,
          note := note }
      if sideU == "BUY" then
        let total := cost + commission
        if acct.cash < total then .error .insufficientFunds
        else
          match findLot st.lots acct.id symbol with
          | some lot =>
              let new_qty := lot.qty + qty
              if new_qty == 0 then .error .zeroDivision
              else
                .ok ({ st with
                        accounts := setCash st.accounts acct.id
                          (acct.cash - total),
                        lots := updateLot st.lots acct.id symbol new_qty
                          ((lot.avg_cost * lot.qty + fill * qty) / new_qty),
                        trades := st.trades ++ [tr] }, tr)
          | none =>
              .ok ({ st with
                      accounts := setCash st.accounts acct.id
                        (acct.cash - total),
                      lots := st.lots ++
                        [{ account_id := acct.id, symbol := symbol,
                           qty := qty, avg_cost := fill }],
                      trades := st.trades ++ [tr] }, tr)
      else if sideU == "SELL" then
        match findLot st.lots acct.id symbol with
        | none => .error .insufficientShares
        | some lot =>
            if lot.qty < qty then .error .insufficientShares
            else
              let proceeds := cost - commission
              .ok ({ st with
                      accounts := setCash st.accounts acct.id
                        (acct.cash + proceeds),
                      lots :=
                        if lot.qty - qty == 0 then
                          deleteLot st.lots acct.id symbol
                        else
                          updateLot st.lots acct.id symbol (lot.qty - qty)
                            lot.avg_cost,
                      trades := st.trades ++ [tr] }, tr)
      else .error .invalidSide

/-- Market value of a list of lots under a quote oracle; `none` when some
quote is unavailable (`last_price` raising inside the loop). -/
def positionsValue (quote : String → Option ℚ) :
    List PositionLot → Option ℚ
  | [] => some 0
  | l :: rest =>
      match quote l.symbol, positionsValue quote rest with
      | some px, some v => some (l.qty * px + v)
      | _, _ => none

/-- Model of `app/engine.py` `compute_equity`: cash plus market value of the
account's lots. -/
def compute_equity (quote : String → Option ℚ) (st : LedgerState)
    (account_name : String) : Except OrderError ℚ :=
  match findAccount st.accounts account_name with
  | none => .error .notFound
  | some acct =>
      match positionsValue quote
          (st.lots.filter (fun l => l.account_id == acct.id)) with
      | none => .error .noPriceData
      | some pv => .ok (acct.cash + pv)

/-- Model of `app/engine.py` `mark_to_market`: compute equity and append a
`DailyMark` row. -/
def mark_to_market (quote : String → Option ℚ) (st : LedgerState)
    (account_name : String) : Except OrderError (LedgerState × DailyMark) :=
  match findAccount st.accounts account_name with
  | none => .error .notFound
  | some acct =>
      match compute_equity quote st account_name with
      | .error e => .error e
      | .ok equity =>
          let mark : DailyMark :=
            { account_id := acct.id, equity := equity, cash := acct.cash }
          .ok ({ st with marks := st.marks ++ [mark] }, mark)

/-- The caller-visible database state after a `place_market_order` call:
the CLI's session scope commits the new state on success and discards the
uncommitted session on an exception. -/
def runOrder (cfg : Settings) (quote : String → Option ℚ)
    (st : LedgerState) (account_name symbol side : String) (qty : ℚ)
    (note : String) : LedgerState :=
  match place_market_order cfg quote st account_name symbol side qty note with
  | .ok (st', _) => st'
  | .error _ => st

/-- States reachable from a fresh database through the public engine
operations, with arbitrary arguments (`compute_equity` reads but never
writes, so it needs no constructor). Each order/mark call may see any quote
oracle. -/
inductive Reachable (cfg : Settings) : LedgerState → Prop
  | init : Reachable cfg .empty
  | ensure {st} (name : String) (cash : Option ℚ) :
      Reachable cfg st → Reachable cfg (ensure_account cfg st name cash).1
  | order {st st' tr} (quote : String → Option ℚ)
      (an sym side : String) (qty : ℚ) (note : String) :
      Reachable cfg st →
      place_market_order cfg quote st an sym side qty note = .ok (st', tr) →
      Reachable cfg st'
  | mtm {st st' mk} (quote : String → Option ℚ) (an : String) :
      Reachable cfg st →
      mark_to_market quote st an = .ok (st', mk) →
      Reachable cfg st'

/-- States reachable as in `Reachable`, but with every order placed for a
strictly positive quantity (the quantities the CLI's buy/sell commands are
meant for). -/
inductive ReachablePos (cfg : Settings) : LedgerState → Prop
  | init : ReachablePos cfg .empty
  | ensure {st} (name : String) (cash : Option ℚ) :
      ReachablePos cfg st → ReachablePos cfg (ensure_account cfg st name cash).1
  | order {st st' tr} (quote : String → Option ℚ)
      (an sym side : String) (qty : ℚ) (note : String) :
      ReachablePos cfg st → 0 < qty →
      place_market_order cfg quote st an sym side qty note = .ok (st', tr) →
      ReachablePos cfg st'
  | mtm {st st' mk} (quote : String → Option ℚ) (an : String) :
      ReachablePos cfg st →
      mark_to_market quote st an = .ok (st', mk) →
      ReachablePos cfg st'

/-! Concrete data for the spec's scenarios. -/

/-- A quote oracle that quotes every symbol at a fixed price. -/
def constQuote (px : ℚ) : String → Option ℚ := fun _ => some px

/-- Account "core" seeded with 5000 cash (the spec's scenario). -/
def coreAcct : Account := { id := 1, name := "core", cash := 5000 }

/-- The database after seeding account "core" with 5000 cash. -/
def scenarioState : LedgerState :=
  (ensure_account defaultSettings .empty "core" (some 5000)).1

/-- The trade produced by the scenario BUY of 10 shares at quote 100. -/
def buyTrade : Trade :=
  { account_id := 1, symbol := "X", side := "BUY", qty := 10,
    requested_price := 100, fill_price := 1001/10, commission := 1/2,
    slippage_bps := 10, note := "" }

/-- The database after the scenario BUY: cash 3998.50, one lot of 10 shares
at average cost 100.10. -/
def buyState : LedgerState :=
  { accounts := [{ id := 1, name := "core", cash := 7997/2 }],
    lots := [{ account_id := 1, symbol := "X", qty := 10,
               avg_cost := 1001/10 }],
    trades := [buyTrade], marks := [] }

/-- The trade produced by a BUY of 0 shares at quote 100. -/
def zeroQtyTrade : Trade :=
  { account_id := 1, symbol := "X", side := "BUY", qty := 0,
    requested_price := 100, fill_price := 1001/10, commission := 1/2,
    slippage_bps := 10, note := "" }

/-- The database after a BUY of 0 shares: a position lot with quantity 0 is
created and retained. -/
def zeroQtyState : LedgerState :=
  { accounts := [{ id := 1, name := "core", cash := 9999/2 }],
    lots := [{ account_id := 1, symbol := "X", qty := 0,
               avg_cost := 1001/10 }],
    trades := [zeroQtyTrade], marks := [] }

/-- The trade produced by selling all 10 scenario shares at quote 100. -/
def sellTrade : Trade :=
  { account_id := 1, symbol := "X", side := "SELL", qty := 10,
    requested_price := 100, fill_price := 999/10, commission := 1/2,
    slippage_bps := 10, note := "" }

/-- The database after selling all 10 scenario shares: the lot is deleted. -/
def sellState : LedgerState :=
  { accounts := [{ id := 1, name := "core", cash := 4997 }],
    lots := [], trades := [buyTrade, sellTrade], marks := [] }

/-- The trade produced by buying 10 more shares at quote 110 on top of the
scenario lot. -/
def buy2Trade : Trade :=
  { account_id := 1, symbol := "X", side := "BUY", qty := 10,
    requested_price := 110, fill_price := 11011/100, commission := 1/2,
    slippage_bps := 10, note := "" }

/-- The database after merging the second BUY into the scenario lot:
quantity 20, weighted-average cost (10·100.10 + 10·110.11)/20 = 105.105. -/
def buy2State : LedgerState :=
  { accounts := [{ id := 1, name := "core", cash := 28969/10 }],
    lots := [{ account_id := 1, symbol := "X", qty := 20,
               avg_cost := 21021/200 }],
    trades := [buyTrade, buy2Trade], marks := [] }

/-! Screener (`app/screener.py`). -/

/-- Model of pandas positional indexing `Series.iloc[i]`: a negative index
counts from the end; `none` is the `IndexError` raised out of range. -/
def iloc (xs : List ℚ) (i : Int) : Option ℚ :=
  if 0 ≤ i then xs[i.toNat]?
  else if i.natAbs ≤ xs.length then xs[xs.length - i.natAbs]?
  else none

/-- The fields of the `momentum_score` dict that the spec's claims concern
(`vol_20d` and `above_sma50` are not modelled: no claim mentions them). -/
structure MomentumResult where
  ret_1m : ℚ
  ret_3m : ℚ
  ret_6m : ℚ
  score : ℚ
deriving Repr, DecidableEq

/-- Failures of `momentum_score`: the guard's `ValueError` ("Not enough
data"), and an uncaught pandas `IndexError` from `iloc`. -/
inductive ScreenError where
  | insufficientHistory
  | indexError
deriving Repr, DecidableEq

/-- Model of `app/screener.py` `momentum_score` on the non-null close
series: guard `len(close) < 60`, then returns from `iloc[-21]`, `iloc[-63]`
and `iloc[0]` relative to the last close. -/
def momentum_score (close : List ℚ) : Except ScreenError MomentumResult :=
  if close.length < 60 then .error .insufficientHistory
  else
    match iloc close (-1), iloc close (-21), iloc close (-63),
        iloc close 0 with
    | some last, some c21, some c63, some c0 =>
        .ok { ret_1m := last / c21 - 1, ret_3m := last / c63 - 1,
              ret_6m := last / c0 - 1,
              score := (last / c63 - 1) + (last / c21 - 1) }
    | _, _, _, _ => .error .indexError

/-! Comparison math (`app/compare.py`). -/

/-- Running maximum of a series continuing from a current peak `cur`. -/
def cummaxFrom (cur : ℚ) : List ℚ → List ℚ
  | [] => []
  | x :: xs => max cur x :: cummaxFrom (max cur x) xs

/-- Model of pandas `Series.cummax()`. -/
def cummax : List ℚ → List ℚ
  | [] => []
  | x :: xs => x :: cummaxFrom x xs

/-- Model of `app/compare.py` `max_drawdown`: `dd = (series / series.cummax()) - 1`
elementwise, then `dd.min()`; pandas `.min()` of an empty series is `NaN`,
modelled as `none`. -/
def max_drawdown (series : List ℚ) : Option ℚ :=
  (List.zipWith (fun v p => v / p - 1) series (cummax series)).min?

/-- The spec's "running peak" at index `i`: the maximum of the series up to
and including index `i`. -/
def prefixPeak (xs : List ℚ) (i : Nat) : ℚ := ((xs.take (i + 1)).max?).getD 0

/-- Modelled from the spec's words, to be compared with `max_drawdown`: the
minimum over the series of (current value / running peak − 1). -/
def max_drawdown_spec (xs : List ℚ) : Option ℚ :=
  ((List.range xs.length).map
    (fun i => (xs.getD i 0) / prefixPeak xs i - 1)).min?

/-! Helper lemmas. -/

theorem pyUpper_BUY : pyUpper "BUY" = "BUY" := by decide

theorem pyUpper_SELL : pyUpper "SELL" = "SELL" := by decide

theorem findAccount_append_of_none {accts : List Account} {name : String}
    {a : Account} (h : findAccount accts name = none) (ha : a.name = name) :
    findAccount (accts ++ [a]) name = some a := by
  unfold findAccount at *
  simp [List.find?_append, h, List.find?, ha]

/-- C10: `ensure_account` is idempotent: an existing account is returned
with the state unchanged (so its cash is never modified, whatever
`initial_cash` argument is passed); a missing account is created with the
given cash or the configured default; and a repeated call returns exactly
the result of the first call. -/
theorem C10_ensure_account_idempotent (cfg : Settings) (st : LedgerState)
    (name : String) (c₁ c₂ : Option ℚ) :
    (∀ acct, findAccount st.accounts name = some acct →
        ensure_account cfg st name c₁ = (st, acct)) ∧
    (findAccount st.accounts name = none →
        ensure_account cfg st name c₁ =
          ({ st with accounts := st.accounts ++
              [{ id := nextId st.accounts, name := name,
                 cash := c₁.getD cfg.default_cash }] },
           { id := nextId st.accounts, name := name,
             cash := c₁.getD cfg.default_cash })) ∧
    ensure_account cfg (ensure_account cfg st name c₁).1 name c₂ =
      ensure_account cfg st name c₁ := by
  refine ⟨?_, ?_, ?_⟩
  · intro acct h; unfold ensure_account; rw [h]
  · intro h; unfold ensure_account; rw [h]
  · cases h : findAccount st.accounts name with
    | some acct =>
        have h1 : ensure_account cfg st name c₁ = (st, acct) := by
          unfold ensure_account; rw [h]
        rw [h1]
        unfold ensure_account; rw [h]
    | none =>
        have h1 : ensure_account cfg st name c₁ =
            ({ st with accounts := st.accounts ++
                [{ id := nextId st.accounts, name := name,
                   cash := c₁.getD cfg.default_cash }] },
             { id := nextId st.accounts, name := name,
               cash := c₁.getD cfg.default_cash }) := by
          unfold ensure_account; rw [h]
        rw [h1]
        have h2 : findAccount (st.accounts ++
            [{ id := nextId st.accounts, name := name,
               cash := c₁.getD cfg.default_cash }]) name =
            some { id := nextId st.accounts, name := name,
                   cash := c₁.getD cfg.default_cash } :=
          findAccount_append_of_none h rfl
        unfold ensure_account
        rw [h2]

/-- Witness for C10 at the spec's scenario: "core" already exists with cash
5000, so a second `ensure_account` with a different seed returns it and the
state unchanged. -/
theorem C10_ensure_account_idempotent_witness :
    ensure_account defaultSettings scenarioState "core" (some 1) =
      (scenarioState, coreAcct) :=
  (C10_ensure_account_idempotent defaultSettings scenarioState "core"
    (some 1) none).1 coreAcct (by decide)

/-- C9: with the account resolved and a quote available, any side whose
upper-casing is neither "BUY" nor "SELL" fails with InvalidSide and the
committed state is unchanged. -/
theorem C9_invalid_side (cfg : Settings) (quote : String → Option ℚ)
    (st : LedgerState) (an sym side : String) (qty : ℚ) (note : String)
    (acct : Account) (px : ℚ)
    (hacct : findAccount st.accounts an = some acct)
    (hpx : quote sym = some px)
    (hbuy : pyUpper side ≠ "BUY") (hsell : pyUpper side ≠ "SELL") :
    place_market_order cfg quote st an sym side qty note =
      .error .invalidSide ∧
    runOrder cfg quote st an sym side qty note = st := by
  have hb : (pyUpper side == "BUY") = false := by
    simp only [beq_eq_false_iff_ne, ne_eq]; exact hbuy
  have hs : (pyUpper side == "SELL") = false := by
    simp only [beq_eq_false_iff_ne, ne_eq]; exact hsell
  have hmain : place_market_order cfg quote st an sym side qty note =
      .error .invalidSide := by
    unfold place_market_order
    rw [hacct, hpx]
    simp [hb, hs]
  exact ⟨hmain, by unfold runOrder; rw [hmain]⟩

/-- Witness for C9: a "HOLD" order against the seeded scenario account
fails with InvalidSide and leaves the state as it was. -/
theorem C9_invalid_side_witness :
    place_market_order defaultSettings (constQuote 100) scenarioState
      "core" "X" "HOLD" 5 "" = .error .invalidSide ∧
    runOrder defaultSettings (constQuote 100) scenarioState
      "core" "X" "HOLD" 5 "" = scenarioState :=
  C9_invalid_side defaultSettings (constQuote 100) scenarioState
    "core" "X" "HOLD" 5 "" coreAcct 100 (by decide) rfl
    (by decide) (by decide)


theorem apply_slippage_buy (px bps : ℚ) {side : String}
    (hside : pyUpper side = "BUY") :
    apply_slippage px side bps = px * (1 + bps / 10000) := by
  unfold apply_slippage
  rw [hside]
  simp only [beq_self_eq_true, if_true]
  ring

theorem apply_slippage_sell (px bps : ℚ) {side : String}
    (hside : pyUpper side = "SELL") :
    apply_slippage px side bps = px * (1 - bps / 10000) := by
  have hb : (("SELL" : String) == "BUY") = false := by decide
  unfold apply_slippage
  rw [hside, hb]
  simp only [Bool.false_eq_true, if_false]
  ring

theorem findAccount_setCash {accts : List Account} {name : String}
    {a : Account} {c : ℚ}
    (hids : accts.Pairwise fun x y => x.id ≠ y.id)
    (h : findAccount accts name = some a) :
    findAccount (setCash accts a.id c) name = some { a with cash := c } := by
  induction accts with
  | nil => simp [findAccount] at h
  | cons b rest ih =>
      rw [List.pairwise_cons] at hids
      obtain ⟨hb, hrest⟩ := hids
      unfold findAccount at h
      unfold List.find? at h
      by_cases hname : (b.name == name) = true
      · rw [hname] at h
        simp only [cond_true] at h
        obtain rfl : b = a := by simpa using h
        unfold setCash
        simp only [beq_self_eq_true, if_true]
        unfold findAccount List.find?
        rw [hname]
      · rw [Bool.not_eq_true] at hname
        rw [hname] at h
        simp only [cond_false] at h
        have hmem : a ∈ rest := List.mem_of_find?_eq_some h
        have hid : (b.id == a.id) = false := by
          simp only [beq_eq_false_iff_ne, ne_eq]
          exact hb a hmem
        unfold setCash
        rw [hid]
        simp only [Bool.false_eq_true, if_false]
        unfold findAccount List.find?
        rw [hname]
        simp only [cond_false]
        exact ih hrest h

theorem place_ok_inv {cfg : Settings} {quote : String → Option ℚ}
    {st : LedgerState} {an sym side : String} {qty : ℚ} {note : String}
    {st' : LedgerState} {tr : Trade}
    (h : place_market_order cfg quote st an sym side qty note =
      .ok (st', tr)) :
    ∃ acct px, findAccount st.accounts an = some acct ∧
      quote sym = some px ∧
      tr = { account_id := acct.id, symbol := sym, side := pyUpper side,
             qty := qty, requested_price := px,
             fill_price := apply_slippage px side cfg.slippage_bps,
             commission := cfg.commistion_per_trade,
             slippage_bps := cfg.slippage_bps, note := note } ∧
      st'.trades = st.trades ++ [tr] ∧ st'.marks = st.marks := by
  unfold place_market_order at h
  cases hacct : findAccount st.accounts an with
  | none => rw [hacct] at h; cases h
  | some acct =>
    rw [hacct] at h
    cases hpx : quote sym with
    | none => rw [hpx] at h; cases h
    | some px =>
      rw [hpx] at h
      refine ⟨acct, px, rfl, rfl, ?_⟩
      dsimp only at h
      split at h
      · split at h
        · cases h
        · split at h
          · split at h
            · cases h
            · simp only [Except.ok.injEq, Prod.mk.injEq] at h
              obtain ⟨hst, htr⟩ := h
              subst hst; subst htr
              exact ⟨rfl, rfl, rfl⟩
          · simp only [Except.ok.injEq, Prod.mk.injEq] at h
            obtain ⟨hst, htr⟩ := h
            subst hst; subst htr
            exact ⟨rfl, rfl, rfl⟩
      · split at h
        · split at h
          · cases h
          · split at h
            · cases h
            · simp only [Except.ok.injEq, Prod.mk.injEq] at h
              obtain ⟨hst, htr⟩ := h
              subst hst; subst htr
              exact ⟨rfl, rfl, rfl⟩
        · cases h

theorem place_buy_eq {cfg : Settings} {quote : String → Option ℚ}
    {st : LedgerState} {an sym side : String} {qty : ℚ} {note : String}
    {acct : Account} {px : ℚ}
    (hacct : findAccount st.accounts an = some acct)
    (hpx : quote sym = some px)
    (hside : pyUpper side = "BUY") :
    place_market_order cfg quote st an sym side qty note =
      (if acct.cash < apply_slippage px side cfg.slippage_bps * qty +
          cfg.commistion_per_trade then .error .insufficientFunds
       else
        match findLot st.lots acct.id sym with
        | some lot =>
            if lot.qty + qty = 0 then .error .zeroDivision
            else .ok ({ st with
                accounts := setCash st.accounts acct.id
                  (acct.cash - (apply_slippage px side cfg.slippage_bps * qty +
                    cfg.commistion_per_trade)),
                lots := updateLot st.lots acct.id sym (lot.qty + qty)
                  ((lot.avg_cost * lot.qty +
                    apply_slippage px side cfg.slippage_bps * qty) /
                    (lot.qty + qty)),
                trades := st.trades ++
                  [{ account_id := acct.id, symbol := sym, side := "BUY",
                     qty := qty, requested_price := px,
                     fill_price := apply_slippage px side cfg.slippage_bps,
                     commission := cfg.commistion_per_trade,
                     slippage_bps := cfg.slippage_bps, note := note }] },
              { account_id := acct.id, symbol := sym, side := "BUY",
                qty := qty, requested_price := px,
                fill_price := apply_slippage px side cfg.slippage_bps,
                commission := cfg.commistion_per_trade,
                slippage_bps := cfg.slippage_bps, note := note })
        | none =>
            .ok ({ st with
                accounts := setCash st.accounts acct.id
                  (acct.cash - (apply_slippage px side cfg.slippage_bps * qty +
                    cfg.commistion_per_trade)),
                lots := st.lots ++
                  [{ account_id := acct.id, symbol := sym, qty := qty,
                     avg_cost := apply_slippage px side cfg.slippage_bps }],
                trades := st.trades ++
                  [{ account_id := acct.id, symbol := sym, side := "BUY",
                     qty := qty, requested_price := px,
                     fill_price := apply_slippage px side cfg.slippage_bps,
                     commission := cfg.commistion_per_trade,
                     slippage_bps := cfg.slippage_bps, note := note }] },
              { account_id := acct.id, symbol := sym, side := "BUY",
                qty := qty, requested_price := px,
                fill_price := apply_slippage px side cfg.slippage_bps,
                commission := cfg.commistion_per_trade,
                slippage_bps := cfg.slippage_bps, note := note })) := by
  unfold place_market_order
  rw [hacct, hpx, hside]
  simp

theorem place_sell_eq (cfg : Settings) (qty : ℚ) (note : String)
    {quote : String → Option ℚ}
    {st : LedgerState} {an sym side : String}
    {acct : Account} {px : ℚ}
    (hacct : findAccount st.accounts an = some acct)
    (hpx : quote sym = some px)
    (hside : pyUpper side = "SELL") :
    place_market_order cfg quote st an sym side qty note =
      (match findLot st.lots acct.id sym with
       | none => .error .insufficientShares
       | some lot =>
          if lot.qty < qty then .error .insufficientShares
          else .ok ({ st with
              accounts := setCash st.accounts acct.id
                (acct.cash + (apply_slippage px side cfg.slippage_bps * qty -
                  cfg.commistion_per_trade)),
              lots :=
                if lot.qty - qty = 0 then deleteLot st.lots acct.id sym
                else updateLot st.lots acct.id sym (lot.qty - qty)
                  lot.avg_cost,
              trades := st.trades ++
                [{ account_id := acct.id, symbol := sym, side := "SELL",
                   qty := qty, requested_price := px,
                   fill_price := apply_slippage px side cfg.slippage_bps,
                   commission := cfg.commistion_per_trade,
                   slippage_bps := cfg.slippage_bps, note := note }] },
            { account_id := acct.id, symbol := sym, side := "SELL",
              qty := qty, requested_price := px,
              fill_price := apply_slippage px side cfg.slippage_bps,
              commission := cfg.commistion_per_trade,
              slippage_bps := cfg.slippage_bps, note := note })) := by
  unfold place_market_order
  rw [hacct, hpx, hside]
  simp

/-- Scenario fact: the spec scenario BUY executes and produces `buyState`
and `buyTrade`. -/
theorem scenario_buy_ok :
    place_market_order defaultSettings (constQuote 100) scenarioState
      "core" "X" "BUY" 10 "" = .ok (buyState, buyTrade) := by
  norm_num [place_market_order, scenarioState, ensure_account, findAccount,
    findLot, defaultSettings, constQuote, apply_slippage, pyUpper_BUY,
    setCash, updateLot, buyState, buyTrade, LedgerState.empty, nextId,
    List.find?]

/-- Scenario fact: a BUY of quantity 0 executes and creates a lot of
quantity 0. -/
theorem scenario_zero_qty_ok :
    place_market_order defaultSettings (constQuote 100) scenarioState
      "core" "X" "BUY" 0 "" = .ok (zeroQtyState, zeroQtyTrade) := by
  norm_num [place_market_order, scenarioState, ensure_account, findAccount,
    findLot, defaultSettings, constQuote, apply_slippage, pyUpper_BUY,
    setCash, updateLot, zeroQtyState, zeroQtyTrade, LedgerState.empty,
    nextId, List.find?]

/-- Scenario fact: selling all 10 shares from `buyState` deletes the lot. -/
theorem scenario_sell_all_ok :
    place_market_order defaultSettings (constQuote 100) buyState
      "core" "X" "SELL" 10 "" = .ok (sellState, sellTrade) := by
  have hne : ("SELL" : String) ≠ "BUY" := by decide
  norm_num [hne, place_market_order, findAccount, findLot, defaultSettings,
    constQuote, apply_slippage, pyUpper_SELL, setCash, updateLot, deleteLot,
    buyState, buyTrade, sellState, sellTrade, List.find?]

/-- Scenario fact: buying 10 more shares at quote 110 merges into the
scenario lot at the weighted-average cost 105.105. -/
theorem scenario_merge_ok :
    place_market_order defaultSettings (constQuote 110) buyState
      "core" "X" "BUY" 10 "" = .ok (buy2State, buy2Trade) := by
  norm_num [place_market_order, findAccount, findLot, defaultSettings,
    constQuote, apply_slippage, pyUpper_BUY, setCash, updateLot,
    buyState, buyTrade, buy2State, buy2Trade, List.find?]

/-- C1: on any successful market order, the fill price is the quote price
adjusted by the configured slippage rate in basis points (up for BUY, down
for SELL), and the account's cash is debited by exactly
fill·qty + commission on a BUY and credited by exactly
fill·qty − commission on a SELL. -/
theorem C1_fill_price_and_cash (cfg : Settings) (quote : String → Option ℚ)
    (st : LedgerState) (an sym side : String) (qty : ℚ) (note : String)
    (st' : LedgerState) (tr : Trade) (acct : Account) (px : ℚ)
    (hids : st.accounts.Pairwise fun x y => x.id ≠ y.id)
    (hacct : findAccount st.accounts an = some acct)
    (hpx : quote sym = some px)
    (hok : place_market_order cfg quote st an sym side qty note =
      .ok (st', tr)) :
    (pyUpper side = "BUY" →
      tr.fill_price = px * (1 + cfg.slippage_bps / 10000) ∧
      findAccount st'.accounts an = some { acct with
        cash := acct.cash -
          (tr.fill_price * qty + cfg.commistion_per_trade) }) ∧
    (pyUpper side = "SELL" →
      tr.fill_price = px * (1 - cfg.slippage_bps / 10000) ∧
      findAccount st'.accounts an = some { acct with
        cash := acct.cash +
          (tr.fill_price * qty - cfg.commistion_per_trade) }) := by
  constructor
  · intro hside
    rw [place_buy_eq hacct hpx hside] at hok
    have hfill := apply_slippage_buy px cfg.slippage_bps hside
    split at hok
    · cases hok
    · split at hok
      · split at hok
        · cases hok
        · simp only [Except.ok.injEq, Prod.mk.injEq] at hok
          obtain ⟨hst, htr⟩ := hok
          subst hst; subst htr
          exact ⟨hfill, findAccount_setCash hids hacct⟩
      · simp only [Except.ok.injEq, Prod.mk.injEq] at hok
        obtain ⟨hst, htr⟩ := hok
        subst hst; subst htr
        exact ⟨hfill, findAccount_setCash hids hacct⟩
  · intro hside
    rw [place_sell_eq cfg qty note hacct hpx hside] at hok
    have hfill := apply_slippage_sell px cfg.slippage_bps hside
    split at hok
    · cases hok
    · split at hok
      · cases hok
      · simp only [Except.ok.injEq, Prod.mk.injEq] at hok
        obtain ⟨hst, htr⟩ := hok
        subst hst; subst htr
        exact ⟨hfill, findAccount_setCash hids hacct⟩

/-- Witness for C1 at the spec scenario: 5000 cash, BUY 10 at quote 100
with 10 bps and 0.50 commission gives fill 100.10, resulting cash
3998.50 = 5000 − 1001.50, and one lot (qty 10, avg cost 100.10). -/
theorem C1_fill_price_and_cash_witness :
    buyTrade.fill_price = 100 * (1 + (10 : ℚ) / 10000) ∧
    findAccount buyState.accounts "core" = some { coreAcct with
      cash := coreAcct.cash - (buyTrade.fill_price * 10 + 1/2) } ∧
    buyTrade.fill_price = 1001/10 ∧
    coreAcct.cash - (buyTrade.fill_price * 10 + 1/2) = 7997/2 ∧
    buyState.lots = [{ account_id := 1, symbol := "X", qty := 10, avg_cost := 1001/10 }] := by
  have h := (C1_fill_price_and_cash defaultSettings (constQuote 100)
    scenarioState "core" "X" "BUY" 10 "" buyState buyTrade coreAcct 100
    (by decide) (by decide) rfl scenario_buy_ok).1 pyUpper_BUY
  refine ⟨h.1, h.2, by norm_num [buyTrade], ?_, rfl⟩
  norm_num [buyTrade, coreAcct]

/-- C5: `place_market_order` is atomic. Every failure leaves the committed
database state exactly as before the call; on success the committed state
carries the cash and lot mutations together with exactly one appended
`Trade` row recording the requested price, fill price, commission and
slippage rate, and touches nothing else (no daily marks). -/
theorem C5_atomic_transaction (cfg : Settings) (quote : String → Option ℚ)
    (st : LedgerState) (an sym side : String) (qty : ℚ) (note : String) :
    (∀ e, place_market_order cfg quote st an sym side qty note = .error e →
        runOrder cfg quote st an sym side qty note = st) ∧
    (∀ st' tr,
        place_market_order cfg quote st an sym side qty note =
          .ok (st', tr) →
        runOrder cfg quote st an sym side qty note = st' ∧
        st'.trades = st.trades ++ [tr] ∧
        st'.marks = st.marks ∧
        ∃ px, quote sym = some px ∧ tr.requested_price = px ∧
          tr.fill_price = apply_slippage px side cfg.slippage_bps ∧
          tr.qty = qty ∧
          tr.commission = cfg.commistion_per_trade ∧
          tr.slippage_bps = cfg.slippage_bps) := by
  constructor
  · intro e he
    unfold runOrder
    rw [he]
  · intro st' tr h
    obtain ⟨acct, px, hacct, hpx, htr, htrades, hmarks⟩ := place_ok_inv h
    subst htr
    exact ⟨by unfold runOrder; rw [h], htrades, hmarks, px, hpx, rfl, rfl,
      rfl, rfl, rfl⟩

/-- Witness for C5: a failing order (unknown account on a fresh database)
commits no change at all. -/
theorem C5_atomic_transaction_witness :
    runOrder defaultSettings (constQuote 100) LedgerState.empty
      "core" "X" "BUY" 1 "" = LedgerState.empty :=
  (C5_atomic_transaction defaultSettings (constQuote 100) LedgerState.empty
    "core" "X" "BUY" 1 "").1 OrderError.notFound rfl

/-- C2: with the account resolved, a quote available and side "BUY", the
order fails with InsufficientFunds exactly when the account's cash is below
fill·qty + commission; when it succeeds, cash becomes exactly
old cash − (fill·qty + commission), which is ≥ 0. -/
theorem C2_insufficient_funds_iff (cfg : Settings)
    (quote : String → Option ℚ) (st : LedgerState)
    (an sym side : String) (qty : ℚ) (note : String)
    (acct : Account) (px : ℚ)
    (hids : st.accounts.Pairwise fun x y => x.id ≠ y.id)
    (hacct : findAccount st.accounts an = some acct)
    (hpx : quote sym = some px)
    (hside : pyUpper side = "BUY") :
    (place_market_order cfg quote st an sym side qty note =
        .error .insufficientFunds ↔
      acct.cash < apply_slippage px side cfg.slippage_bps * qty +
        cfg.commistion_per_trade) ∧
    (∀ st' tr,
      place_market_order cfg quote st an sym side qty note =
        .ok (st', tr) →
      findAccount st'.accounts an = some { acct with
        cash := acct.cash - (apply_slippage px side cfg.slippage_bps * qty +
          cfg.commistion_per_trade) } ∧
      0 ≤ acct.cash - (apply_slippage px side cfg.slippage_bps * qty +
        cfg.commistion_per_trade)) := by
  rw [place_buy_eq hacct hpx hside]
  constructor
  · constructor
    · intro h
      by_cases hc : acct.cash < apply_slippage px side cfg.slippage_bps *
          qty + cfg.commistion_per_trade
      · exact hc
      · rw [if_neg hc] at h
        split at h
        · split at h <;> simp_all
        · simp_all
    · intro hc
      rw [if_pos hc]
  · intro st' tr h
    split at h
    · cases h
    · rename_i hc
      have hle : 0 ≤ acct.cash -
          (apply_slippage px side cfg.slippage_bps * qty +
            cfg.commistion_per_trade) := by
        have := not_lt.mp hc
        linarith
      split at h
      · split at h
        · cases h
        · simp only [Except.ok.injEq, Prod.mk.injEq] at h
          obtain ⟨hst, htr⟩ := h
          subst hst
          exact ⟨findAccount_setCash hids hacct, hle⟩
      · simp only [Except.ok.injEq, Prod.mk.injEq] at h
        obtain ⟨hst, htr⟩ := h
        subst hst
        exact ⟨findAccount_setCash hids hacct, hle⟩

/-- Witness for C2: with 5000 cash, a BUY of 100 shares at quote 100 needs
10,010.50 and is rejected with InsufficientFunds. -/
theorem C2_insufficient_funds_iff_witness :
    place_market_order defaultSettings (constQuote 100) scenarioState
      "core" "X" "BUY" 100 "" = .error .insufficientFunds :=
  (C2_insufficient_funds_iff defaultSettings (constQuote 100) scenarioState
    "core" "X" "BUY" 100 "" coreAcct 100 (by decide) (by decide) rfl
    pyUpper_BUY).1.mpr (by
      norm_num [apply_slippage, pyUpper_BUY, defaultSettings, coreAcct])

/-- C3: with the account resolved, a quote available and side "SELL", the
order fails with InsufficientShares exactly when no lot exists or the held
quantity is below the requested quantity; a failure commits nothing (the
lot is unchanged); on success the lot's quantity decreases by exactly the
requested quantity with its average cost unchanged, and the lot row is
deleted exactly when the quantity reaches zero. -/
theorem C3_sell_lot_update (cfg : Settings) (quote : String → Option ℚ)
    (st : LedgerState) (an sym side : String) (qty : ℚ) (note : String)
    (acct : Account) (px : ℚ)
    (hacct : findAccount st.accounts an = some acct)
    (hpx : quote sym = some px)
    (hside : pyUpper side = "SELL") :
    (place_market_order cfg quote st an sym side qty note =
        .error .insufficientShares ↔
      findLot st.lots acct.id sym = none ∨
      ∃ lot, findLot st.lots acct.id sym = some lot ∧ lot.qty < qty) ∧
    (place_market_order cfg quote st an sym side qty note =
        .error .insufficientShares →
      runOrder cfg quote st an sym side qty note = st) ∧
    (∀ st' tr,
      place_market_order cfg quote st an sym side qty note =
        .ok (st', tr) →
      ∃ lot, findLot st.lots acct.id sym = some lot ∧ qty ≤ lot.qty ∧
        (lot.qty - qty = 0 → st'.lots = deleteLot st.lots acct.id sym) ∧
        (lot.qty - qty ≠ 0 →
          st'.lots = updateLot st.lots acct.id sym (lot.qty - qty)
            lot.avg_cost)) := by
  have heq := place_sell_eq cfg qty note hacct hpx hside
  refine ⟨?_, ?_, ?_⟩
  · rw [heq]
    split
    · rename_i hlot
      simp [hlot]
    · rename_i lot hlot
      rw [hlot]
      by_cases hq : lot.qty < qty
      · rw [if_pos hq]
        constructor
        · intro _
          exact Or.inr ⟨lot, rfl, hq⟩
        · intro _
          rfl
      · rw [if_neg hq]
        constructor
        · intro h
          cases h
        · rintro (h | ⟨lot', hl', hq'⟩)
          · cases h
          · obtain rfl : lot = lot' := by simpa using hl'
            exact absurd hq' hq
  · intro h
    unfold runOrder
    rw [heq] at h ⊢
    rw [h]
  · intro st' tr h
    rw [heq] at h
    split at h
    · cases h
    · rename_i lot hlot
      split at h
      · cases h
      · rename_i hq
        simp only [Except.ok.injEq, Prod.mk.injEq] at h
        obtain ⟨hst, htr⟩ := h
        subst hst
        refine ⟨lot, hlot, not_lt.mp hq, ?_, ?_⟩
        · intro hz
          dsimp only
          rw [if_pos hz]
        · intro hz
          dsimp only
          rw [if_neg hz]

/-- Witness for C3: selling with no lot fails with InsufficientShares and
commits nothing; selling the whole scenario lot of 10 deletes the lot. -/
theorem C3_sell_lot_update_witness :
    place_market_order defaultSettings (constQuote 100) scenarioState
      "core" "X" "SELL" 5 "" = .error .insufficientShares ∧
    runOrder defaultSettings (constQuote 100) scenarioState
      "core" "X" "SELL" 5 "" = scenarioState ∧
    place_market_order defaultSettings (constQuote 100) buyState
      "core" "X" "SELL" 10 "" = .ok (sellState, sellTrade) ∧
    sellState.lots = [] := by
  have hc3 := C3_sell_lot_update defaultSettings (constQuote 100)
    scenarioState "core" "X" "SELL" 5 "" coreAcct 100 (by decide) rfl
    pyUpper_SELL
  have herr : place_market_order defaultSettings (constQuote 100)
      scenarioState "core" "X" "SELL" 5 "" = .error .insufficientShares :=
    hc3.1.mpr (Or.inl (by decide))
  exact ⟨herr, hc3.2.1 herr, scenario_sell_all_ok, rfl⟩

/-- C4: a BUY into an existing lot merges at the weighted-average cost
(old qty · old cost + buy qty · fill) / (old qty + buy qty) and the merged
quantity is the sum; a BUY with no existing lot creates a new lot with the
bought quantity at the fill price. -/
theorem C4_weighted_average_merge (cfg : Settings)
    (quote : String → Option ℚ) (st : LedgerState)
    (an sym side : String) (qty : ℚ) (note : String)
    (st' : LedgerState) (tr : Trade) (acct : Account) (px : ℚ)
    (hacct : findAccount st.accounts an = some acct)
    (hpx : quote sym = some px)
    (hside : pyUpper side = "BUY")
    (hok : place_market_order cfg quote st an sym side qty note =
      .ok (st', tr)) :
    (∀ lot, findLot st.lots acct.id sym = some lot →
      lot.qty + qty ≠ 0 ∧
      st'.lots = updateLot st.lots acct.id sym (lot.qty + qty)
        ((lot.qty * lot.avg_cost + qty * tr.fill_price) /
          (lot.qty + qty))) ∧
    (findLot st.lots acct.id sym = none →
      st'.lots = st.lots ++ [{ account_id := acct.id, symbol := sym, qty := qty, avg_cost := tr.fill_price }]) := by
  rw [place_buy_eq hacct hpx hside] at hok
  split at hok
  · cases hok
  · split at hok
    · rename_i lot0 hlot0
      split at hok
      · cases hok
      · rename_i hnz
        simp only [Except.ok.injEq, Prod.mk.injEq] at hok
        obtain ⟨hst, htr⟩ := hok
        subst hst; subst htr
        constructor
        · intro lot hlot
          rw [hlot0] at hlot
          obtain rfl : lot0 = lot := by simpa using hlot
          refine ⟨hnz, ?_⟩
          have harg : lot0.avg_cost * lot0.qty +
              apply_slippage px side cfg.slippage_bps * qty =
              lot0.qty * lot0.avg_cost +
                qty * apply_slippage px side cfg.slippage_bps := by ring
          dsimp only
          rw [harg]
        · intro hnone
          rw [hlot0] at hnone
          cases hnone
    · rename_i hnone0
      simp only [Except.ok.injEq, Prod.mk.injEq] at hok
      obtain ⟨hst, htr⟩ := hok
      subst hst; subst htr
      constructor
      · intro lot hlot
        rw [hnone0] at hlot
        cases hlot
      · intro _
        rfl

/-- Witness for C4: merging a BUY of 10 at fill 110.11 into the scenario
lot (10 at 100.10) gives quantity 20 at weighted-average cost 105.105. -/
theorem C4_weighted_average_merge_witness :
    buy2State.lots = updateLot buyState.lots 1 "X" (10 + 10)
      ((10 * (1001/10) + 10 * buy2Trade.fill_price) / (10 + 10)) ∧
    buy2State.lots = [{ account_id := 1, symbol := "X", qty := 20, avg_cost := 21021/200 }] := by
  have h := (C4_weighted_average_merge defaultSettings (constQuote 110)
    buyState "core" "X" "BUY" 10 "" buy2State buy2Trade
    { id := 1, name := "core", cash := 7997/2 } 110 rfl rfl
    pyUpper_BUY scenario_merge_ok).1
    { account_id := 1, symbol := "X", qty := 10, avg_cost := 1001/10 }
    rfl
  exact ⟨h.2, rfl⟩

theorem mem_updateLot {lots : List PositionLot} {aid : Nat} {sym : String}
    {q c : ℚ} {l' : PositionLot} (h : l' ∈ updateLot lots aid sym q c) :
    l' ∈ lots ∨ l'.qty = q := by
  induction lots with
  | nil => simp [updateLot] at h
  | cons l rest ih =>
      unfold updateLot at h
      split at h
      · rcases List.mem_cons.mp h with h1 | h1
        · subst h1
          exact Or.inr rfl
        · exact Or.inl (List.mem_cons_of_mem _ h1)
      · rcases List.mem_cons.mp h with h1 | h1
        · subst h1
          exact Or.inl (List.mem_cons_self _ _)
        · rcases ih h1 with h2 | h2
          · exact Or.inl (List.mem_cons_of_mem _ h2)
          · exact Or.inr h2

theorem mem_deleteLot {lots : List PositionLot} {aid : Nat} {sym : String}
    {l' : PositionLot} (h : l' ∈ deleteLot lots aid sym) : l' ∈ lots := by
  induction lots with
  | nil => simp [deleteLot] at h
  | cons l rest ih =>
      unfold deleteLot at h
      split at h
      · exact List.mem_cons_of_mem _ h
      · rcases List.mem_cons.mp h with h1 | h1
        · subst h1
          exact List.mem_cons_self _ _
        · exact List.mem_cons_of_mem _ (ih h1)

theorem place_ok_lot_mem {cfg : Settings} {quote : String → Option ℚ}
    {st : LedgerState} {an sym side : String} {qty : ℚ} {note : String}
    {st' : LedgerState} {tr : Trade}
    (hok : place_market_order cfg quote st an sym side qty note =
      .ok (st', tr))
    {l' : PositionLot} (hl' : l' ∈ st'.lots) :
    l' ∈ st.lots ∨ l'.qty = qty ∨
    ∃ lot, lot ∈ st.lots ∧
      (l'.qty = lot.qty + qty ∨
       (l'.qty = lot.qty - qty ∧ lot.qty - qty ≠ 0 ∧ ¬ lot.qty < qty)) := by
  unfold place_market_order at hok
  cases hacct : findAccount st.accounts an with
  | none => rw [hacct] at hok; cases hok
  | some acct =>
    rw [hacct] at hok
    cases hpx : quote sym with
    | none => rw [hpx] at hok; cases hok
    | some px =>
      rw [hpx] at hok
      dsimp only at hok
      split at hok
      · split at hok
        · cases hok
        · split at hok
          · rename_i lot hlot
            split at hok
            · cases hok
            · simp only [Except.ok.injEq, Prod.mk.injEq] at hok
              obtain ⟨hst, htr⟩ := hok
              subst hst
              rcases mem_updateLot hl' with h1 | h1
              · exact Or.inl h1
              · exact Or.inr (Or.inr ⟨lot,
                  List.mem_of_find?_eq_some hlot, Or.inl h1⟩)
          · simp only [Except.ok.injEq, Prod.mk.injEq] at hok
            obtain ⟨hst, htr⟩ := hok
            subst hst
            rcases List.mem_append.mp hl' with h1 | h1
            · exact Or.inl h1
            · obtain rfl := List.mem_singleton.mp h1
              exact Or.inr (Or.inl rfl)
      · split at hok
        · split at hok
          · cases hok
          · rename_i lot hlot
            split at hok
            · cases hok
            · rename_i hq
              simp only [Except.ok.injEq, Prod.mk.injEq] at hok
              obtain ⟨hst, htr⟩ := hok
              subst hst
              dsimp only at hl'
              split at hl'
              · exact Or.inl (mem_deleteLot hl')
              · rename_i hz
                rcases mem_updateLot hl' with h1 | h1
                · exact Or.inl h1
                · refine Or.inr (Or.inr ⟨lot,
                    List.mem_of_find?_eq_some hlot, Or.inr ⟨h1, ?_, hq⟩⟩)
                  simpa using hz
        · cases hok

theorem ensure_account_lots (cfg : Settings) (st : LedgerState)
    (name : String) (cash : Option ℚ) :
    (ensure_account cfg st name cash).1.lots = st.lots := by
  unfold ensure_account
  split <;> rfl

theorem mark_to_market_ok_lots {quote : String → Option ℚ}
    {st : LedgerState} {an : String} {st' : LedgerState} {mk : DailyMark}
    (h : mark_to_market quote st an = .ok (st', mk)) :
    st'.lots = st.lots := by
  unfold mark_to_market at h
  split at h
  · cases h
  · split at h
    · cases h
    · simp only [Except.ok.injEq, Prod.mk.injEq] at h
      obtain ⟨hst, hmk⟩ := h
      subst hst
      rfl

/-- C6 as stated is false: a state holding a lot of quantity exactly 0 is
reachable from the empty database through `ensure_account` followed by a
`place_market_order` BUY of quantity 0, so a zero-quantity lot is retained. -/
theorem C6_counterexample_zero_lot :
    Reachable defaultSettings zeroQtyState ∧
    ∃ l ∈ zeroQtyState.lots, ¬ (0 ≤ l.qty ∧ l.qty ≠ 0) := by
  constructor
  · exact Reachable.order (constQuote 100) "core" "X" "BUY" 0 ""
      (Reachable.ensure "core" (some 5000) Reachable.init)
      scenario_zero_qty_ok
  · refine ⟨{ account_id := 1, symbol := "X", qty := 0, avg_cost := 1001/10 }, ?_, ?_⟩
    · simp [zeroQtyState]
    · simp

/-- C6 amended: restricted to orders of strictly positive quantity, every
reachable state's lots all have quantity > 0 — in particular quantity ≥ 0,
and no lot of quantity 0 is retained. -/
theorem C6_lot_invariant_amended (cfg : Settings) (st : LedgerState)
    (h : ReachablePos cfg st) :
    ∀ l ∈ st.lots, 0 ≤ l.qty ∧ l.qty ≠ 0 := by
  have hpos : ∀ l ∈ st.lots, 0 < l.qty := by
    induction h with
    | init => intro l hl; simp [LedgerState.empty] at hl
    | ensure name cash hst ih =>
        intro l hl
        rw [ensure_account_lots] at hl
        exact ih l hl
    | order quote an sym side qty note hst hq hok ih =>
        intro l hl
        rcases place_ok_lot_mem hok hl with h1 | h1 | ⟨lot, hlot, hcase⟩
        · exact ih l h1
        · rw [h1]; exact hq
        · have hlotpos := ih lot hlot
          rcases hcase with hsum | ⟨hdiff, hnz, hge⟩
          · rw [hsum]
            exact add_pos hlotpos hq
          · rw [hdiff]
            have hsub : 0 ≤ lot.qty - qty := by
              have := not_lt.mp hge
              linarith
            exact lt_of_le_of_ne hsub (Ne.symm hnz)
    | mtm quote an hst hok ih =>
        intro l hl
        rw [mark_to_market_ok_lots hok] at hl
        exact ih l hl
  intro l hl
  have := hpos l hl
  exact ⟨le_of_lt this, ne_of_gt this⟩

/-- Witness for the amended C6: the scenario BUY state is reachable with
positive quantities, and its single lot of 10 shares satisfies the
invariant. -/
theorem C6_lot_invariant_amended_witness :
    ({ account_id := 1, symbol := "X", qty := 10, avg_cost := 1001/10 } : PositionLot) ∈ buyState.lots ∧
    (0 : ℚ) ≤ 10 ∧ (10 : ℚ) ≠ 0 := by
  have hreach : ReachablePos defaultSettings buyState :=
    ReachablePos.order (constQuote 100) "core" "X" "BUY" 10 ""
      (ReachablePos.ensure "core" (some 5000) ReachablePos.init)
      (by norm_num) scenario_buy_ok
  have hmem : ({ account_id := 1, symbol := "X", qty := 10, avg_cost := 1001/10 } : PositionLot) ∈ buyState.lots := by
    simp [buyState]
  exact ⟨hmem, C6_lot_invariant_amended defaultSettings buyState hreach _ hmem⟩

/-- C7: the code violates the claim. A series of exactly 60 sessions passes
the "at least 60" InsufficientHistory guard, yet `momentum_score` then
crashes with an uncaught IndexError from `close.iloc[-63]` instead of
succeeding; 59 sessions do raise InsufficientHistory, and from 63 sessions
on the score is computed (composite = 1-month + 3-month return). -/
theorem C7_insufficient_history_guard_bug :
    ¬ (List.replicate 60 (1 : ℚ)).length < 60 ∧
    momentum_score (List.replicate 60 (1 : ℚ)) = .error .indexError ∧
    momentum_score (List.replicate 59 (1 : ℚ)) =
      .error .insufficientHistory ∧
    momentum_score (List.replicate 63 (1 : ℚ)) =
      .ok { ret_1m := 0, ret_3m := 0, ret_6m := 0, score := 0 } := by
  refine ⟨by norm_num, ?_, ?_, ?_⟩ <;> norm_num [momentum_score, iloc]

theorem foldl_max_assoc (t : List ℚ) :
    ∀ a b : ℚ, t.foldl max (max a b) = max a (t.foldl max b) := by
  induction t with
  | nil => intro a b; rfl
  | cons c t ih =>
      intro a b
      simp only [List.foldl_cons]
      rw [max_assoc, ih]

theorem foldl_min_assoc (t : List ℚ) :
    ∀ a b : ℚ, t.foldl min (min a b) = min a (t.foldl min b) := by
  induction t with
  | nil => intro a b; rfl
  | cons c t ih =>
      intro a b
      simp only [List.foldl_cons]
      rw [min_assoc, ih]

theorem max?_cons_foldl (l : List ℚ) :
    ∀ a : ℚ, (a :: l).max? = some (l.foldl max a) := by
  induction l with
  | nil => intro a; rfl
  | cons y t ih =>
      intro a
      rw [List.max?_cons, ih y]
      simp only [Option.elim_some, List.foldl_cons]
      rw [← foldl_max_assoc]

theorem min?_cons_foldl (l : List ℚ) :
    ∀ a : ℚ, (a :: l).min? = some (l.foldl min a) := by
  induction l with
  | nil => intro a; rfl
  | cons y t ih =>
      intro a
      rw [List.min?_cons, ih y]
      simp only [Option.elim_some, List.foldl_cons]
      rw [← foldl_min_assoc]

theorem zip_cummaxFrom (l : List ℚ) : ∀ cur : ℚ,
    List.zipWith (fun v p => v / p - 1) l (cummaxFrom cur l) =
    (List.range l.length).map
      (fun i => l.getD i 0 / ((l.take (i + 1)).foldl max cur) - 1) := by
  induction l with
  | nil => intro cur; rfl
  | cons x rest ih =>
      intro cur
      simp only [cummaxFrom, List.zipWith, List.length_cons,
        List.range_succ_eq_map, List.map_cons, List.map_map]
      refine congrArg₂ List.cons ?_ ?_
      · simp
      · rw [ih (max cur x)]
        congr 1

theorem max_drawdown_eq_spec (xs : List ℚ) :
    max_drawdown xs = max_drawdown_spec xs := by
  cases xs with
  | nil => rfl
  | cons x rest =>
      unfold max_drawdown max_drawdown_spec cummax
      congr 1
      simp only [List.zipWith]
      rw [zip_cummaxFrom rest x]
      simp only [List.length_cons, List.range_succ_eq_map, List.map_cons,
        List.map_map]
      refine congrArg₂ List.cons ?_ ?_
      · simp [prefixPeak]
      · congr 1

theorem cummaxFrom_sorted (l : List ℚ) : ∀ cur : ℚ, (∀ y ∈ l, cur ≤ y) →
    l.Sorted (· ≤ ·) → cummaxFrom cur l = l := by
  induction l with
  | nil => intro cur _ _; rfl
  | cons x rest ih =>
      intro cur hcur hsort
      rw [List.sorted_cons] at hsort
      obtain ⟨hx, hrest⟩ := hsort
      unfold cummaxFrom
      have hmx : max cur x = x :=
        max_eq_right (hcur x (List.mem_cons_self _ _))
      rw [hmx, ih x hx hrest]

theorem foldl_min_zero (t : List ℚ) :
    ∀ a : ℚ, (∀ y ∈ t, y = 0) → a = 0 → t.foldl min a = 0 := by
  induction t with
  | nil => intro a _ ha; exact ha
  | cons y t ih =>
      intro a hall ha
      simp only [List.foldl_cons]
      refine ih _ (fun z hz => hall z (List.mem_cons_of_mem _ hz)) ?_
      rw [ha, hall y (List.mem_cons_self _ _)]
      exact min_self 0

/-- C8 as stated is false at the empty series: pandas `Series.min()` of an
empty series is NaN, so `max_drawdown` of an empty series has no numeric
value rather than the claimed 0. -/
theorem C8_counterexample_empty_series :
    max_drawdown ([] : List ℚ) = none ∧
    max_drawdown ([] : List ℚ) ≠ some 0 := by
  exact ⟨rfl, by simp [max_drawdown, cummax]⟩

/-- C8 amended: `max_drawdown` equals the spec's formula (minimum over the
series of current value / running peak − 1) on every series; it is 0 on
every monotonically increasing series of positive values, −0.5 on
[100, 50], and has no value (pandas NaN) on the empty series. -/
theorem C8_max_drawdown_amended :
    (∀ xs : List ℚ, max_drawdown xs = max_drawdown_spec xs) ∧
    (∀ (x : ℚ) (l : List ℚ), 0 < x → (x :: l).Sorted (· ≤ ·) →
      max_drawdown (x :: l) = some 0) ∧
    max_drawdown [100, 50] = some (-(1/2)) ∧
    max_drawdown ([] : List ℚ) = none := by
  refine ⟨max_drawdown_eq_spec, ?_, ?_, rfl⟩
  · intro x l hx hs
    rw [List.sorted_cons] at hs
    obtain ⟨hxl, hl⟩ := hs
    have hc : cummax (x :: l) = x :: cummaxFrom x l := rfl
    unfold max_drawdown
    rw [hc, cummaxFrom_sorted l x hxl hl, List.zipWith_same]
    have hall : ∀ v ∈ x :: l, v / v - 1 = 0 := by
      intro v hv
      have hvpos : 0 < v := by
        rcases List.mem_cons.mp hv with rfl | hv'
        · exact hx
        · exact lt_of_lt_of_le hx (hxl v hv')
      rw [div_self (ne_of_gt hvpos)]
      ring
    rw [List.map_cons, min?_cons_foldl]
    have hx0 : x / x - 1 = 0 := hall x (List.mem_cons_self _ _)
    rw [hx0]
    congr 1
    refine foldl_min_zero _ _ ?_ rfl
    intro y hy
    obtain ⟨v, hv, rfl⟩ := List.mem_map.mp hy
    exact hall v (List.mem_cons_of_mem _ hv)
  · norm_num [max_drawdown, cummax, cummaxFrom, List.min?, List.zipWith]

/-- Witness for the amended C8: the increasing series [1, 2, 3] has zero
drawdown, and on [100, 50] the code agrees with the spec's formula. -/
theorem C8_max_drawdown_amended_witness :
    max_drawdown [1, 2, 3] = some 0 ∧
    max_drawdown [100, 50] = max_drawdown_spec [100, 50] := by
  refine ⟨C8_max_drawdown_amended.2.1 1 [2, 3] (by norm_num) ?_,
    C8_max_drawdown_amended.1 [100, 50]⟩
  simp [List.sorted_cons]
  norm_num

end PaperTrade
